import Mathlib

/-!
Verification of the primitive-options logic of featuretools
(`featuretools/primitives/options_utils.py`): option normalization,
table construction, global reconciliation and match filtering.

Python dicts are embedded as association lists (`assocFind?` / `assocSet`
mirror `d[k]` reads and writes, preserving insertion order), Python sets
as `Finset String`, and fallible code returns `Except PyError`.
-/

deriving instance DecidableEq for Except

namespace OptionsUtils

abbrev EntityId := String
abbrev VariableId := String

/-- Modelled from the spec: the entityset collaborator is consumed only as a
snapshot mapping each entity id to its variable ids (built in
`generate_all_primitive_options` as `entityset_dict`); inside this module it
is used only to emit non-fatal warnings, which do not affect any result. -/
abbrev EntitySnapshot := List (EntityId × List VariableId)

/-- A Python dict mapping entity ids to sets of variable ids, as an
insertion-ordered association list. -/
abbrev VarMap := List (EntityId × Finset VariableId)

/-- Lookup in an insertion-ordered association list (`d[k]` / `k in d`). -/
def assocFind? (k : String) : List (String × α) → Option α
  | [] => none
  | (k', v) :: rest => if k' = k then some v else assocFind? k rest

/-- Write `d[k] = v` on an insertion-ordered association list: replace the
first binding of `k`, or append a new binding at the end. -/
def assocSet (k : String) (v : α) : List (String × α) → List (String × α)
  | [] => [(k, v)]
  | (k', v') :: rest => if k' = k then (k, v) :: rest else (k', v') :: assocSet k v rest

/-- Modelled from the spec: the feature object interface of section 6 — a
feature exposes whether it is a base/identity column reference
(`isinstance(f, IdentityFeature)`), its owning entity id and, for identity
features, its column id. -/
inductive Feature
  | identity (entity : EntityId) (column : VariableId)
  | other (entity : EntityId)
deriving DecidableEq, Repr

/-- The entity id `f.entity.id`: every feature has an owning entity. -/
def Feature.entityId : Feature → EntityId
  | .identity e _ => e
  | .other e => e

/-- `isinstance(f, IdentityFeature)`. -/
def Feature.isBase : Feature → Bool
  | .identity _ _ => true
  | .other _ => false

/-- One canonical per-slot option record as produced by `_init_option_dict`
(and, for the default records of `generate_all_primitive_options`, with all
optional keys absent).  `ignore_entities` and `ignore_variables` are always
present after normalization; an `Option` field is `none` exactly when the
corresponding dict key is absent. -/
structure OptionRecord where
  ignore_entities : Finset EntityId
  ignore_variables : VarMap
  include_entities : Option (Finset EntityId) := none
  include_variables : Option VarMap := none
  ignore_groupby_entities : Option (Finset EntityId) := none
  include_groupby_entities : Option (Finset EntityId) := none
  ignore_groupby_variables : Option VarMap := none
  include_groupby_variables : Option VarMap := none
deriving DecidableEq

/-- Inner closure `passes_ignore_filter` of `_variable_filter_generator`:
a non-identity feature passes trivially; an identity feature passes unless
its entity is a key of `ignore_variables` and its column is in that set. -/
def passes_ignore_filter (options : OptionRecord) (f : Feature) : Bool :=
  match f with
  | .other _ => true
  | .identity e v =>
      match assocFind? e options.ignore_variables with
      | none => true
      | some s => decide (v ∉ s)

/-- Inner closure `passes_include_filter` of `_variable_filter_generator`
(only built when `include_variables` is present, so it takes that map):
a non-identity feature passes trivially; an identity feature passes iff its
entity is a key of `include_variables` and its column is in that set. -/
def passes_include_filter (include_variables : VarMap) (f : Feature) : Bool :=
  match f with
  | .other _ => true
  | .identity e v =>
      match assocFind? e include_variables with
      | none => false
      | some s => decide (v ∈ s)

/-- `_variable_filter_generator(options)`: the direct (non-groupby) per-slot
feature filter. -/
def _variable_filter_generator (options : OptionRecord) : Feature → Bool :=
  match options.include_variables with
  | some inc => fun f =>
      passes_include_filter inc f ||
        ((assocFind? f.entityId inc).isNone && passes_ignore_filter options f)
  | none => fun f => passes_ignore_filter options f

/-- Inner closure `passes_include_groupby_filter` of
`_groupby_filter_generator` (given the present `include_groupby_variables`
map): only an identity feature whose entity is a key of the map and whose
column is in that set passes. -/
def passes_include_groupby_filter (include_groupby_variables : VarMap) (f : Feature) : Bool :=
  match f with
  | .other _ => false
  | .identity e v =>
      match assocFind? e include_groupby_variables with
      | none => false
      | some s => decide (v ∈ s)

/-- Inner closure `passes_ignore_groupby_filter` of
`_groupby_filter_generator` (given the present `ignore_groupby_variables`
map): only an identity feature passes, and only if its entity is not a key
of the map, or its column is not in that entity's set. -/
def passes_ignore_groupby_filter (ignore_groupby_variables : VarMap) (f : Feature) : Bool :=
  match f with
  | .other _ => false
  | .identity e v =>
      match assocFind? e ignore_groupby_variables with
      | none => true
      | some s => decide (v ∉ s)

/-- `_groupby_filter_generator(options)`: the groupby-key feature filter,
with four cases depending on which of `include_groupby_variables` /
`ignore_groupby_variables` are present. -/
def _groupby_filter_generator (options : OptionRecord) : Feature → Bool :=
  match options.include_groupby_variables, options.ignore_groupby_variables with
  | some inc, some ign => fun f =>
      passes_include_groupby_filter inc f ||
        ((assocFind? f.entityId inc).isNone && passes_ignore_groupby_filter ign f)
  | some inc, none => fun f =>
      passes_include_groupby_filter inc f || (assocFind? f.entityId inc).isNone
  | none, some ign => fun f => passes_ignore_groupby_filter ign f
  | none, none => fun f => f.isBase

/-- Inner closure `should_ignore_entity` of `ignore_entity_for_primitive`. -/
def should_ignore_entity (entityId : EntityId) (groupby : Bool) (option : OptionRecord) : Bool :=
  if (option.include_entities.elim false fun inc => decide (entityId ∉ inc)) ||
      (groupby && option.include_groupby_entities.elim false fun inc => decide (entityId ∉ inc)) then
    true
  else if decide (entityId ∈ option.ignore_entities) ||
      (groupby && option.ignore_groupby_entities.elim false fun ign => decide (entityId ∈ ign)) then
    true
  else
    false

/-- `ignore_entity_for_primitive(options, entity, groupby)`: an entity is
inadmissible iff any of the primitive's records says so. -/
def ignore_entity_for_primitive (options : List OptionRecord) (entityId : EntityId)
    (groupby : Bool) : Bool :=
  options.any (should_ignore_entity entityId groupby)

/-! ### Match filtering (`filter_matches_by_options`) -/

/-- Python exceptions raised by this module.  `unrecognizedOptionKey` and
`duplicatePrimitiveOptions` are `KeyError`s, `invalidOptionShape` a
`TypeError`, `slotCountMismatch` an `AssertionError`, `attributeError` the
`AttributeError` from `primitive.input_types` when both registry lookups
return `None`, and `indexError` the `IndexError` from `options[0]` on an
empty record list. -/
inductive PyError
  | unrecognizedOptionKey (primitive key : String)
  | invalidOptionShape (primitive key : String)
  | slotCountMismatch (primitive : String)
  | attributeError
  | duplicatePrimitiveOptions (primitive : String)
  | indexError
deriving DecidableEq

/-- `generator = _groupby_filter_generator if groupby else
_variable_filter_generator`. -/
def match_filter_generator (groupby : Bool) : OptionRecord → Feature → Bool :=
  if groupby then _groupby_filter_generator else _variable_filter_generator

/-- The `is_valid_match` closure of `filter_matches_by_options` in the
`len(options) > 1` branch: build one filter per record and test the match
positionally via `zip` (which stops at the shorter of the two lists). -/
def is_valid_match_multi (options : List OptionRecord) (groupby : Bool)
    (mtch : List Feature) : Bool :=
  ((options.map (match_filter_generator groupby)).zip mtch).all fun p => p.1 p.2

/-- The `is_valid_match` closure of `filter_matches_by_options` in the
single-record branch: every feature of the match must pass `options[0]`. -/
def is_valid_match_single (option : OptionRecord) (groupby : Bool)
    (mtch : List Feature) : Bool :=
  mtch.all (match_filter_generator groupby option)

/-- `filter_matches_by_options(matches, options, groupby)`: keep the
admissible matches, deduplicated into a set.  With an empty record list the
single-record branch evaluates `options[0]`, so the first candidate match
raises `IndexError`; with no candidates the loop body never runs and the
empty set is returned. -/
def filter_matches_by_options (matchList : List (List Feature))
    (options : List OptionRecord) (groupby : Bool) :
    Except PyError (Finset (List Feature)) :=
  if 1 < options.length then
    .ok (matchList.filter (fun m => is_valid_match_multi options groupby m)).toFinset
  else
    match options, matchList with
    | [], [] => .ok ∅
    | [], _ :: _ => .error .indexError
    | option :: _, _ =>
        .ok (matchList.filter (fun m => is_valid_match_single option groupby m)).toFinset

/-- `filter_groupby_matches_by_options(groupby_matches, options)`: wrap each
candidate groupby feature in a one-tuple and filter in groupby mode. -/
def filter_groupby_matches_by_options (groupby_matches : List Feature)
    (options : List OptionRecord) : Except PyError (Finset (List Feature)) :=
  filter_matches_by_options (groupby_matches.map fun f => [f]) options true

/-! ### Option normalization (`_init_option_dict`) -/

/-- A raw option value as supplied by the user, quotiented by the shape
tests the validators perform: a list of entity ids, a dict mapping entity
ids to lists of variable ids, or any other value (`other` stands for every
value that is neither a list nor a dict whose values are all lists — the
validators reject all of those identically). -/
inductive RawValue
  | pylist (l : List EntityId)
  | pydict (d : List (EntityId × List VariableId))
  | other
deriving DecidableEq

/-- A raw per-slot option dict: insertion-ordered key/value pairs. -/
abbrev RawDict := List (String × RawValue)

/-- `list_entity_check(option, es)`: accept iff the value is a list.  The
entity-membership pass over `es` only emits warnings and never changes the
result, so it is omitted. -/
def list_entity_check (option : RawValue) (es : EntitySnapshot) : Bool :=
  match option with
  | .pylist _ => true
  | _ => false

/-- `dict_to_list_variable_check(option, es)`: accept iff the value is a
dict whose values are all lists (any other shape is `RawValue.other`).  The
membership pass over `es` only emits warnings and never changes the
result, so it is omitted. -/
def dict_to_list_variable_check (option : RawValue) (es : EntitySnapshot) : Bool :=
  match option with
  | .pydict _ => true
  | _ => false

/-- `_get_primitive_options()`: the fixed registry mapping each of the
eight recognized option keys to its value validator. -/
def _get_primitive_options : List (String × (RawValue → EntitySnapshot → Bool)) :=
  [("ignore_entities", list_entity_check),
   ("include_entities", list_entity_check),
   ("ignore_variables", dict_to_list_variable_check),
   ("include_variables", dict_to_list_variable_check),
   ("ignore_groupby_entities", list_entity_check),
   ("include_groupby_entities", list_entity_check),
   ("ignore_groupby_variables", dict_to_list_variable_check),
   ("include_groupby_variables", dict_to_list_variable_check)]

/-- The eight recognized option keys. -/
def option_keys : List String := _get_primitive_options.map Prod.fst

/-- The `initialized_option_dict` under construction: every key is still
optional, since defaults are applied only after the loop. -/
structure PendingRecord where
  ignore_entities : Option (Finset EntityId) := none
  ignore_variables : Option VarMap := none
  include_entities : Option (Finset EntityId) := none
  include_variables : Option VarMap := none
  ignore_groupby_entities : Option (Finset EntityId) := none
  include_groupby_entities : Option (Finset EntityId) := none
  ignore_groupby_variables : Option VarMap := none
  include_groupby_variables : Option VarMap := none
deriving DecidableEq

/-- Store one validated option under its key:
`initialized_option_dict[option_key] = set(option)` for list values and
`= {key: set(option[key]) for key in option}` for dict values.  Key/shape
combinations the validators exclude leave the record unchanged
(unreachable after validation). -/
def store_option (acc : PendingRecord) (key : String) (v : RawValue) : PendingRecord :=
  match v with
  | .pylist l =>
      let s : Finset EntityId := l.toFinset
      if key = "ignore_entities" then { acc with ignore_entities := some s }
      else if key = "include_entities" then { acc with include_entities := some s }
      else if key = "ignore_groupby_entities" then { acc with ignore_groupby_entities := some s }
      else if key = "include_groupby_entities" then { acc with include_groupby_entities := some s }
      else acc
  | .pydict d =>
      let m : VarMap := d.map fun ev => (ev.1, ev.2.toFinset)
      if key = "ignore_variables" then { acc with ignore_variables := some m }
      else if key = "include_variables" then { acc with include_variables := some m }
      else if key = "ignore_groupby_variables" then { acc with ignore_groupby_variables := some m }
      else if key = "include_groupby_variables" then { acc with include_groupby_variables := some m }
      else acc
  | .other => acc

/-- The key loop of `_init_option_dict`: reject the first key that is not
in the registry (`KeyError`) or whose value fails its validator
(`TypeError`); otherwise convert and store the value. -/
def _init_option_dict_loop (key : String) (es : EntitySnapshot) :
    RawDict → PendingRecord → Except PyError PendingRecord
  | [], acc => .ok acc
  | (option_key, option) :: rest, acc =>
      match assocFind? option_key _get_primitive_options with
      | none => .error (.unrecognizedOptionKey key option_key)
      | some check =>
          if check option es then
            _init_option_dict_loop key es rest (store_option acc option_key option)
          else
            .error (.invalidOptionShape key option_key)

/-- Apply the post-loop defaults of `_init_option_dict`: `ignore_variables`
defaults to `{}` and `ignore_entities` to `set()`; `include_*` and groupby
keys stay absent when the user did not supply them. -/
def finalize_option_dict (acc : PendingRecord) : OptionRecord :=
  { ignore_entities := acc.ignore_entities.getD ∅,
    ignore_variables := acc.ignore_variables.getD [],
    include_entities := acc.include_entities,
    include_variables := acc.include_variables,
    ignore_groupby_entities := acc.ignore_groupby_entities,
    include_groupby_entities := acc.include_groupby_entities,
    ignore_groupby_variables := acc.ignore_groupby_variables,
    include_groupby_variables := acc.include_groupby_variables }

/-- `_init_option_dict(key, option_dict, es)`: validate and convert one raw
option dict into a canonical record. -/
def _init_option_dict (key : String) (option_dict : RawDict) (es : EntitySnapshot) :
    Except PyError OptionRecord :=
  (_init_option_dict_loop key es option_dict {}).map finalize_option_dict

/-! ### Table construction (`_init_primitive_options`) -/

/-- A key of the raw `primitive_options` mapping: a single primitive name
or a tuple of primitive names. -/
inductive PrimitiveKey
  | single (s : String)
  | tup (l : List String)
deriving DecidableEq

/-- A value of the raw `primitive_options` mapping: one option dict, or an
ordered list of per-slot option dicts. -/
inductive RawOptions
  | one (d : RawDict)
  | many (l : List RawDict)
deriving DecidableEq

/-- The flat table `primitive identifier → ordered list of canonical
records`, as the insertion-ordered dict `flattened_options`. -/
abbrev OptionsTable := List (String × List OptionRecord)

/-- The primitive names covered by a key (`(primitive_key,)` wrapping for
non-tuples). -/
def names_of_key : PrimitiveKey → List String
  | .single s => [s]
  | .tup l => l

/-- The rendering of a key used in error messages and as the `key`
argument of `_init_option_dict`. -/
def key_label : PrimitiveKey → String
  | .single s => s
  | .tup l => String.intercalate ", " l

/-- Modelled from the spec: the primitive-registry collaborator
(`featuretools.primitives.get_aggregation_primitives` /
`get_transform_primitives`, not part of the sources under verification)
exposes lookup by primitive name and each primitive's declared input-slot
count, abstracted as a single `String → Option Nat` parameter.  Both
registries are keyed by name strings, so looking up a tuple key returns
`None` and `primitive.input_types` then raises `AttributeError`. -/
def registry_key_lookup (registry : String → Option Nat) : PrimitiveKey → Option Nat
  | .single s => registry s
  | .tup _ => none

/-- The inner `for each_primitive in primitive_key` loop: raise
`KeyError` if a name already has an entry (`DuplicatePrimitiveOptions`),
otherwise insert the shared record list, in order. -/
def insert_names (opts : List OptionRecord) :
    List String → OptionsTable → Except PyError OptionsTable
  | [], t => .ok t
  | n :: rest, t =>
      if (assocFind? n t).isSome then .error (.duplicatePrimitiveOptions n)
      else insert_names opts rest (t ++ [(n, opts)])

/-- Process one `(primitive_key, options)` item: for list-form values,
look up the slot count (`AttributeError` if the lookup fails), assert it
equals the list length (`SlotCountMismatch` otherwise) and normalize every
entry; for single dicts, normalize once into a one-element list. -/
def normalize_entry (es : EntitySnapshot) (registry : String → Option Nat)
    (key : PrimitiveKey) : RawOptions → Except PyError (List OptionRecord)
  | .many l =>
      match registry_key_lookup registry key with
      | none => .error .attributeError
      | some n =>
          if n ≠ l.length then .error (.slotCountMismatch (key_label key))
          else l.mapM fun d => _init_option_dict (key_label key) d es
  | .one d =>
      match _init_option_dict (key_label key) d es with
      | .error e => .error e
      | .ok r => .ok [r]

/-- The outer loop of `_init_primitive_options` over the raw mapping's
items, threading `flattened_options`. -/
def _init_primitive_options_loop (es : EntitySnapshot) (registry : String → Option Nat) :
    List (PrimitiveKey × RawOptions) → OptionsTable → Except PyError OptionsTable
  | [], t => .ok t
  | (key, rawOpts) :: rest, t =>
      match normalize_entry es registry key rawOpts with
      | .error e => .error e
      | .ok opts =>
          match insert_names opts (names_of_key key) t with
          | .error e => .error e
          | .ok t' => _init_primitive_options_loop es registry rest t'

/-- `_init_primitive_options(primitive_options, es)`: flatten tuple keys,
normalize all values, and check for conflicting keys. -/
def _init_primitive_options (primitive_options : List (PrimitiveKey × RawOptions))
    (es : EntitySnapshot) (registry : String → Option Nat) :
    Except PyError OptionsTable :=
  _init_primitive_options_loop es registry primitive_options []

/-! ### Global reconciliation (`generate_all_primitive_options`) -/

/-- `included_entities` of one primitive's record list: the union over its
slot records of `include_entities` and the keys of `include_variables`
(absent and empty values both contribute the empty set, matching the
truthiness tests in the source). -/
def included_entities_of (options : List OptionRecord) : Finset EntityId :=
  options.foldl
    (fun acc o =>
      acc ∪ (o.include_entities.getD ∅) ∪ ((o.include_variables.getD []).map Prod.fst).toFinset)
    ∅

/-- `option['ignore_entities'] = option['ignore_entities'].union(
ignore_entities.difference(included_entities))`. -/
def update_ignore_entities (ignore_entities included : Finset EntityId)
    (o : OptionRecord) : OptionRecord :=
  { o with ignore_entities := o.ignore_entities ∪ (ignore_entities \ included) }

/-- The body of the `for entity, ignore_vars in ignore_variables.items()`
loop for one record: union the globals into an existing per-entity ignore
set; leave an explicitly included entity untouched; otherwise adopt the
global set for that entity. -/
def update_ignore_variables (included : Finset EntityId)
    (ev : EntityId × Finset VariableId) (o : OptionRecord) : OptionRecord :=
  match assocFind? ev.1 o.ignore_variables with
  | some s => { o with ignore_variables := assocSet ev.1 (s ∪ ev.2) o.ignore_variables }
  | none =>
      if ev.1 ∈ included then o
      else { o with ignore_variables := assocSet ev.1 ev.2 o.ignore_variables }

/-- The default record synthesized for a primitive without explicit
records: only the global ignore rules, every other key absent. -/
def default_record (ignore_entities : Finset EntityId) (ignore_variables : VarMap) :
    OptionRecord :=
  { ignore_entities := ignore_entities, ignore_variables := ignore_variables }

/-- One iteration of the `for primitive in all_primitives` loop of
`generate_all_primitive_options`, acting on the state
`(primitive_options table, global_ignore_entities)`. -/
def reconcile_step (ignore_entities : Finset EntityId) (ignore_variables : VarMap)
    (st : OptionsTable × Finset EntityId) (primitive : String) :
    OptionsTable × Finset EntityId :=
  match assocFind? primitive st.1 with
  | some options =>
      let included := included_entities_of options
      let residual := st.2 \ included
      let options := options.map (update_ignore_entities ignore_entities included)
      let options := ignore_variables.foldl
        (fun acc ev => acc.map (update_ignore_variables included ev)) options
      (assocSet primitive options st.1, residual)
  | none =>
      (st.1 ++ [(primitive, [default_record ignore_entities ignore_variables])], st.2)

/-- The whole reconciliation loop: fold `reconcile_step` over
`all_primitives`, starting from the normalized table and the caller's
global `ignore_entities`. -/
def reconcile_all (all_primitives : List String) (table : OptionsTable)
    (ignore_entities : Finset EntityId) (ignore_variables : VarMap) :
    OptionsTable × Finset EntityId :=
  all_primitives.foldl (reconcile_step ignore_entities ignore_variables) (table, ignore_entities)

/-- `generate_all_primitive_options(all_primitives, primitive_options,
ignore_entities, ignore_variables, es)`: normalize the raw options into a
table, then reconcile the global ignore rules per primitive, returning the
resolved table and the residual global-ignore set.  `all_primitives` is
taken as the list of primitive names (`primitive.name` is read for
non-string members). -/
def generate_all_primitive_options (all_primitives : List String)
    (primitive_options : List (PrimitiveKey × RawOptions))
    (ignore_entities : Finset EntityId) (ignore_variables : VarMap)
    (es : EntitySnapshot) (registry : String → Option Nat) :
    Except PyError (OptionsTable × Finset EntityId) :=
  match _init_primitive_options primitive_options es registry with
  | .error e => .error e
  | .ok table => .ok (reconcile_all all_primitives table ignore_entities ignore_variables)

/-! ### Derived notions used by the reconciliation theorems -/

/-- The combined effect of the two per-record update passes of one
`reconcile_step` visit on a single record (proved equal to the source's
map-then-fold order in `reconcile_step_some`). -/
def reconcile_record (ignore_entities included : Finset EntityId) (gIgnV : VarMap)
    (o : OptionRecord) : OptionRecord :=
  gIgnV.foldl (fun o ev => update_ignore_variables included ev o)
    (update_ignore_entities ignore_entities included o)

/-- The union of `included_entities` over the listed primitives' explicit
records in a table (a primitive without an entry contributes nothing).
This is the set the residual global-ignore set is proven to subtract. -/
def included_union (table : OptionsTable) (prims : List String) : Finset EntityId :=
  prims.foldr (fun q acc => ((assocFind? q table).elim ∅ included_entities_of) ∪ acc) ∅

/-- Relation between a record reached by reconciliation passes and its
original: include fields are untouched, and the ignore-entity set only
grows, by nothing outside `gIgnE \ inc`. -/
def record_rel (gIgnE inc : Finset EntityId) (o o₀ : OptionRecord) : Prop :=
  o.include_entities = o₀.include_entities ∧
  o.include_variables = o₀.include_variables ∧
  o₀.ignore_entities ⊆ o.ignore_entities ∧
  o.ignore_entities ⊆ o₀.ignore_entities ∪ (gIgnE \ inc)

/-- Relation between a primitive's original table entry and its entry
after some reconciliation passes: original entries survive slotwise under
`record_rel`, entries are never dropped, and entries added during
reconciliation (default records) include no entities. -/
def entry_rel (gIgnE : Finset EntityId) :
    Option (List OptionRecord) → Option (List OptionRecord) → Prop
  | some opts₀, some opts =>
      List.Forall₂ (fun o o₀ => record_rel gIgnE (included_entities_of opts₀) o o₀) opts opts₀
  | some _, none => False
  | none, some opts => included_entities_of opts = ∅
  | none, none => True

/-- `entry_rel` at every primitive name. -/
def table_rel (gIgnE : Finset EntityId) (table₀ table : OptionsTable) : Prop :=
  ∀ q, entry_rel gIgnE (assocFind? q table₀) (assocFind? q table)

/-- A registry with no primitives, standing for any registry in runs whose
raw options contain no list-form values. -/
def registry_none : String → Option Nat := fun _ => none

/-- A registry declaring a single primitive `b` with one input slot. -/
def registry_b1 : String → Option Nat := fun s => if s = "b" then some 1 else none

/-- Registry dispatch for one raw key/value pair: the validator verdict
for a recognized key, `false` for an unrecognized one. -/
def validate_value (key : String) (v : RawValue) (es : EntitySnapshot) : Bool :=
  match assocFind? key _get_primitive_options with
  | some check => check v es
  | none => false

/-- Whether normalization failed (no record produced). -/
def init_failed : Except PyError OptionRecord → Bool
  | .error _ => true
  | .ok _ => false

/-- Whether normalization failed specifically with the
`UnrecognizedOptionKey` error. -/
def is_unrecognized_key_error : Except PyError OptionRecord → Bool
  | .error (.unrecognizedOptionKey _ _) => true
  | _ => false

/-- A concrete one-primitive table whose single record explicitly includes
entity `X`. -/
def c2_table : OptionsTable :=
  [("p", [{ ignore_entities := ∅, ignore_variables := [], include_entities := some {"X"} }])]

/-! ### Association-list lemmas -/

theorem assocFind?_nil (k : String) : assocFind? k ([] : List (String × α)) = none := rfl

theorem assocFind?_cons (k k' : String) (v : α) (l : List (String × α)) :
    assocFind? k ((k', v) :: l) = if k' = k then some v else assocFind? k l := rfl

theorem assocFind?_eq_none_iff (k : String) (l : List (String × α)) :
    assocFind? k l = none ↔ k ∉ l.map Prod.fst := by
  induction l with
  | nil => simp [assocFind?]
  | cons p rest ih =>
      obtain ⟨k', v⟩ := p
      by_cases h : k' = k
      · subst h; simp [assocFind?]
      · rw [assocFind?_cons, if_neg h, ih]
        simp only [List.map_cons, List.mem_cons, not_or]
        constructor
        · intro hk; exact ⟨fun hkk => h hkk.symm, hk⟩
        · intro hk; exact hk.2

theorem mem_keys_of_assocFind?_eq_some {k : String} {l : List (String × α)} {v : α}
    (h : assocFind? k l = some v) : k ∈ l.map Prod.fst := by
  by_contra hk
  rw [← assocFind?_eq_none_iff] at hk
  rw [h] at hk
  exact Option.noConfusion hk

theorem assocFind?_assocSet_self (k : String) (v : α) (l : List (String × α)) :
    assocFind? k (assocSet k v l) = some v := by
  induction l with
  | nil => simp [assocSet, assocFind?]
  | cons p rest ih =>
      obtain ⟨k', v'⟩ := p
      by_cases h : k' = k <;> simp [assocSet, assocFind?, h, ih]

theorem assocFind?_assocSet_ne (k k' : String) (v : α) (l : List (String × α)) (h : k ≠ k') :
    assocFind? k' (assocSet k v l) = assocFind? k' l := by
  induction l with
  | nil => simp [assocSet, assocFind?, h]
  | cons p rest ih =>
      obtain ⟨k'', v''⟩ := p
      by_cases h2 : k'' = k
      · subst h2
        rw [assocSet, if_pos rfl, assocFind?_cons, assocFind?_cons, if_neg h, if_neg h]
      · rw [assocSet, if_neg h2, assocFind?_cons, assocFind?_cons]
        by_cases h3 : k'' = k' <;> simp [h3, ih]

theorem assocFind?_append (k : String) (l l' : List (String × α)) :
    assocFind? k (l ++ l') =
      match assocFind? k l with
      | some v => some v
      | none => assocFind? k l' := by
  induction l with
  | nil => simp [assocFind?]
  | cons p rest ih =>
      obtain ⟨k', v⟩ := p
      by_cases h : k' = k <;> simp [assocFind?, h, ih]

/-! ### C1: groupby filtering of non-base features -/

/-- C1 counterexample: claim C1 states that the groupby filter rejects
every non-base feature regardless of which include/ignore groupby keys are
present, in particular when only `include_groupby_variables` is present and
the feature's owning entity is absent from that map.  On exactly that
record, the source's include-only case accepts a non-base feature whose
owning entity is not a key of the include map. -/
theorem groupby_filter_nonbase_counterexample :
    _groupby_filter_generator
      { ignore_entities := ∅, ignore_variables := [],
        include_groupby_variables := some [("a", {"v"})] }
      (Feature.other "b") = true := by decide

/-- C1 (amended): the groupby filter rejects every non-base feature,
except in the single case where `include_groupby_variables` is present,
`ignore_groupby_variables` is absent, and the feature's owning entity is
not a key of the include map — such a non-base feature passes. -/
theorem groupby_filter_nonbase_amended (O : OptionRecord) (e : EntityId) :
    _groupby_filter_generator O (Feature.other e) = true ↔
      (O.ignore_groupby_variables = none ∧
        ∃ inc, O.include_groupby_variables = some inc ∧ assocFind? e inc = none) := by
  cases hI : O.include_groupby_variables with
  | none =>
      cases hG : O.ignore_groupby_variables with
      | none =>
          simp [_groupby_filter_generator, hI, hG, Feature.isBase]
      | some ign =>
          simp [_groupby_filter_generator, hI, hG, passes_ignore_groupby_filter]
  | some inc =>
      cases hG : O.ignore_groupby_variables with
      | none =>
          simp [_groupby_filter_generator, hI, hG, passes_include_groupby_filter,
            Feature.entityId, Option.isNone_iff_eq_none]
      | some ign =>
          simp [_groupby_filter_generator, hI, hG, passes_include_groupby_filter,
            passes_ignore_groupby_filter, Feature.entityId]

/-! ### C5: direct variable filtering of base features -/

/-- C5: for a base/identity feature, the direct filter passes exactly as
the spec describes: with `include_variables` present, pass iff the owning
entity is a key with the column in its included set, or the entity is not
a key at all and the feature passes the ignore rule; with
`include_variables` absent, pass iff the entity is absent from
`ignore_variables` or the column is not in that entity's ignored set. -/
theorem variable_filter_base_feature (O : OptionRecord) (e : EntityId) (v : VariableId) :
    _variable_filter_generator O (Feature.identity e v) = true ↔
      (match O.include_variables with
       | some inc =>
           (∃ s, assocFind? e inc = some s ∧ v ∈ s) ∨
           (assocFind? e inc = none ∧
             (assocFind? e O.ignore_variables = none ∨
               ∃ s, assocFind? e O.ignore_variables = some s ∧ v ∉ s))
       | none =>
           (assocFind? e O.ignore_variables = none ∨
             ∃ s, assocFind? e O.ignore_variables = some s ∧ v ∉ s)) := by
  cases hI : O.include_variables with
  | none =>
      cases h2 : assocFind? e O.ignore_variables with
      | none => simp [_variable_filter_generator, hI, passes_ignore_filter, h2]
      | some s => simp [_variable_filter_generator, hI, passes_ignore_filter, h2]
  | some inc =>
      cases h1 : assocFind? e inc with
      | none =>
          cases h2 : assocFind? e O.ignore_variables with
          | none =>
              simp [_variable_filter_generator, hI, passes_include_filter,
                passes_ignore_filter, Feature.entityId, h1, h2]
          | some s =>
              simp [_variable_filter_generator, hI, passes_include_filter,
                passes_ignore_filter, Feature.entityId, h1, h2]
      | some s =>
          cases h2 : assocFind? e O.ignore_variables with
          | none =>
              simp [_variable_filter_generator, hI, passes_include_filter,
                passes_ignore_filter, Feature.entityId, h1, h2]
          | some s' =>
              simp [_variable_filter_generator, hI, passes_include_filter,
                passes_ignore_filter, Feature.entityId, h1, h2]

/-! ### C6: unmentioned entities are admissible -/

/-- C6: an entity mentioned in no option record — no record has an
`include_entities` or `include_groupby_entities` key, and the entity is in
no record's `ignore_entities` or `ignore_groupby_entities` — is admissible
in both groupby and non-groupby mode. -/
theorem unmentioned_entity_admissible (options : List OptionRecord) (entity : EntityId)
    (groupby : Bool)
    (h : ∀ o ∈ options, o.include_entities = none ∧ o.include_groupby_entities = none ∧
          entity ∉ o.ignore_entities ∧ entity ∉ (o.ignore_groupby_entities.getD ∅)) :
    ignore_entity_for_primitive options entity groupby = false := by
  rw [ignore_entity_for_primitive, List.any_eq_false]
  intro o ho
  obtain ⟨h1, h2, h3, h4⟩ := h o ho
  cases hg : o.ignore_groupby_entities with
  | none => simp [should_ignore_entity, h1, h2, h3, hg]
  | some s =>
      rw [hg] at h4
      simp only [Option.getD_some] at h4
      simp [should_ignore_entity, h1, h2, h3, hg, h4]

/-- C6 witness: a concrete record set mentioning only entities `x` and
`y` admits the unmentioned entity `e` in groupby mode. -/
theorem unmentioned_entity_admissible_witness :
    ignore_entity_for_primitive
      [{ ignore_entities := {"x"}, ignore_variables := [("x", {"c"})],
         ignore_groupby_entities := some {"y"} }] "e" true = false :=
  unmentioned_entity_admissible _ "e" true (by decide)

/-! ### C3: filtering with an empty option-record list -/

/-- C3 counterexample: claim C3 states that filtering any candidate set
against an empty option-record list returns every candidate unchanged and
does not fail; on a one-element candidate list the source instead raises
`IndexError` from `options[0]`. -/
theorem filter_matches_empty_options_counterexample :
    filter_matches_by_options [[Feature.other "e"]] [] false = .error .indexError ∧
    (Except.error PyError.indexError : Except PyError (Finset (List Feature))) ≠
      .ok {[Feature.other "e"]} := by decide

/-- C3 (amended): with an empty option-record list,
`filter_matches_by_options` returns the empty set when there are no
candidate matches, and raises `IndexError` (from `options[0]` inside
`is_valid_match`) as soon as there is at least one candidate match. -/
theorem filter_matches_empty_options_amended (g : Bool) (ms : List (List Feature)) :
    filter_matches_by_options ms [] g =
      if ms.isEmpty then .ok ∅ else .error .indexError := by
  cases ms <;> rfl

/-! ### C9: normalization is deterministic -/

/-- C9: `_init_option_dict` is a pure function of its raw dict (the
entityset snapshot only feeds warnings): structurally equal raw dicts
normalize to structurally equal results.  In this value-level embedding
determinism is definitional; the theorem records that the embedding of the
normalizer is a function of the raw dict alone. -/
theorem init_option_dict_deterministic (k : String) (d d' : RawDict) (es : EntitySnapshot)
    (h : d = d') : _init_option_dict k d es = _init_option_dict k d' es := by rw [h]

/-- C9 witness: normalizing two structurally equal copies of a concrete
raw dict yields structurally equal records. -/
theorem init_option_dict_deterministic_witness :
    _init_option_dict "p" [("ignore_entities", RawValue.pylist ["a"])] [] =
      _init_option_dict "p" [("ignore_entities", RawValue.pylist ["a"])] [] :=
  init_option_dict_deterministic "p" _ _ [] rfl

/-! ### C10: positional pairing by zip in multi-record filtering -/

theorem zip_append_left_of_le (fs : List α) (m extra : List β) (h : fs.length ≤ m.length) :
    fs.zip (m ++ extra) = fs.zip m := by
  induction fs generalizing m with
  | nil => simp
  | cons f fs ih =>
      cases m with
      | nil => simp at h
      | cons x m =>
          simp only [List.cons_append, List.zip_cons_cons]
          rw [ih m (Nat.le_of_succ_le_succ h)]

theorem zip_congr_of_take_eq (fs fs' : List α) (m : List β)
    (h : m.length ≤ fs.length) (h' : m.length ≤ fs'.length)
    (ht : fs.take m.length = fs'.take m.length) :
    fs.zip m = fs'.zip m := by
  induction m generalizing fs fs' with
  | nil => simp
  | cons x m ih =>
      cases fs with
      | nil => simp at h
      | cons f fs =>
          cases fs' with
          | nil => simp at h'
          | cons f' fs' =>
              simp only [List.length_cons, List.take_succ_cons, List.cons.injEq] at ht
              obtain ⟨hf, ht'⟩ := ht
              subst hf
              simp only [List.zip_cons_cons]
              rw [ih fs fs' (Nat.le_of_succ_le_succ h) (Nat.le_of_succ_le_succ h') ht']

/-- C10: with more than one record, `filter_matches_by_options` keeps a
match iff the `zip`-paired per-position checks all pass; the pairing stops
at the shorter list, so trailing features beyond the record list are never
tested, records beyond the match length impose no constraint, and (last
conjunct) a concrete match strictly shorter than the record list is
accepted even though the unused second record would reject its feature. -/
theorem filter_matches_zip_semantics :
    (∀ (g : Bool) (options : List OptionRecord) (ms : List (List Feature)),
        1 < options.length →
        filter_matches_by_options ms options g =
          .ok (ms.filter fun m => is_valid_match_multi options g m).toFinset) ∧
    (∀ (g : Bool) (options : List OptionRecord) (m extra : List Feature),
        options.length ≤ m.length →
        is_valid_match_multi options g (m ++ extra) = is_valid_match_multi options g m) ∧
    (∀ (g : Bool) (options options' : List OptionRecord) (m : List Feature),
        m.length ≤ options.length → m.length ≤ options'.length →
        options.take m.length = options'.take m.length →
        is_valid_match_multi options g m = is_valid_match_multi options' g m) ∧
    (filter_matches_by_options [[Feature.identity "e" "v"]]
        [{ ignore_entities := ∅, ignore_variables := [] },
         { ignore_entities := ∅, ignore_variables := [("e", {"v"})] }] false
      = .ok {[Feature.identity "e" "v"]}) := by
  refine ⟨?_, ?_, ?_, by decide⟩
  · intro g options ms h
    unfold filter_matches_by_options
    rw [if_pos h]
  · intro g options m extra h
    unfold is_valid_match_multi
    rw [zip_append_left_of_le _ m extra (by simpa using h)]
  · intro g options options' m h1 h2 ht
    unfold is_valid_match_multi
    rw [zip_congr_of_take_eq (options.map (match_filter_generator g))
      (options'.map (match_filter_generator g)) m (by simpa using h1) (by simpa using h2)
      (by rw [← List.map_take, ← List.map_take, ht])]

/-- C10 witness: with two records, a match with a trailing third feature
is tested identically to the two-feature match. -/
theorem filter_matches_zip_semantics_witness :
    is_valid_match_multi
        [{ ignore_entities := ∅, ignore_variables := [] },
         { ignore_entities := ∅, ignore_variables := [] }] false
        ([Feature.other "a", Feature.other "b"] ++ [Feature.other "c"])
      = is_valid_match_multi
        [{ ignore_entities := ∅, ignore_variables := [] },
         { ignore_entities := ∅, ignore_variables := [] }] false
        [Feature.other "a", Feature.other "b"] :=
  filter_matches_zip_semantics.2.1 false _ [Feature.other "a", Feature.other "b"]
    [Feature.other "c"] (by decide)

/-! ### C7: unrecognized option keys -/

theorem init_option_dict_loop_error_of_bad_key (k : String) (es : EntitySnapshot) :
    ∀ (d : RawDict) (acc : PendingRecord),
    (∃ kv ∈ d, kv.1 ∉ option_keys) →
    ∃ e, _init_option_dict_loop k es d acc = .error e := by
  intro d
  induction d with
  | nil => intro acc h; simp at h
  | cons kv rest ih =>
      intro acc h
      obtain ⟨ok, v⟩ := kv
      cases hfind : assocFind? ok _get_primitive_options with
      | none =>
          exact ⟨.unrecognizedOptionKey k ok, by simp [_init_option_dict_loop, hfind]⟩
      | some chk =>
          by_cases hv : chk v es
          · rcases h with ⟨kv', hmem, hbad⟩
            rcases List.mem_cons.mp hmem with hh | hm
            · exact absurd (mem_keys_of_assocFind?_eq_some hfind)
                (by rw [hh] at hbad; exact hbad)
            · obtain ⟨e, he⟩ := ih (store_option acc ok v) ⟨kv', hm, hbad⟩
              exact ⟨e, by simp [_init_option_dict_loop, hfind, hv, he]⟩
          · exact ⟨.invalidOptionShape k ok, by simp [_init_option_dict_loop, hfind, hv]⟩

theorem init_option_dict_loop_unrecognized (k : String) (es : EntitySnapshot) :
    ∀ (d : RawDict) (acc : PendingRecord),
    (∃ kv ∈ d, kv.1 ∉ option_keys) →
    (∀ kv ∈ d, kv.1 ∈ option_keys → validate_value kv.1 kv.2 es = true) →
    ∃ bk, bk ∉ option_keys ∧
      _init_option_dict_loop k es d acc = .error (.unrecognizedOptionKey k bk) := by
  intro d
  induction d with
  | nil => intro acc h _; simp at h
  | cons kv rest ih =>
      intro acc h hval
      obtain ⟨ok, v⟩ := kv
      cases hfind : assocFind? ok _get_primitive_options with
      | none =>
          refine ⟨ok, ?_, by simp [_init_option_dict_loop, hfind]⟩
          rw [option_keys, ← assocFind?_eq_none_iff]
          exact hfind
      | some chk =>
          have hok : ok ∈ option_keys := mem_keys_of_assocFind?_eq_some hfind
          have hv : chk v es = true := by
            have := hval (ok, v) (List.mem_cons_self _ _) hok
            rw [validate_value, hfind] at this
            exact this
          rcases h with ⟨kv', hmem, hbad⟩
          rcases List.mem_cons.mp hmem with hh | hm
          · exact absurd hok (by rw [hh] at hbad; exact hbad)
          · obtain ⟨bk, hbk, he⟩ := ih (store_option acc ok v) ⟨kv', hm, hbad⟩
              (fun kv2 h2 => hval kv2 (List.mem_cons_of_mem _ h2))
            exact ⟨bk, hbk, by simp [_init_option_dict_loop, hfind, hv, he]⟩

/-- C7 counterexample: claim C7 states that every raw dict containing an
unrecognized key fails with `UnrecognizedOptionKey`; when an earlier entry
with a recognized key has a malformed value, the source instead raises the
`InvalidOptionShape` (`TypeError`) fault first. -/
theorem init_option_dict_unrecognized_key_counterexample :
    _init_option_dict "p"
        [("ignore_entities", RawValue.other), ("bogus_option", RawValue.pylist [])] []
      = .error (.invalidOptionShape "p" "ignore_entities") ∧
    "bogus_option" ∉ option_keys ∧
    (Except.error (PyError.invalidOptionShape "p" "ignore_entities") :
        Except PyError OptionRecord) ≠
      .error (.unrecognizedOptionKey "p" "bogus_option") := by decide

/-- C7 (amended): a raw dict containing an unrecognized key always fails
and produces no record; the error is `UnrecognizedOptionKey` whenever
every recognized key's value passes its validator (in particular whenever
the other entries are well-shaped) — otherwise the earlier entry's
`InvalidOptionShape` fault wins. -/
theorem init_option_dict_unrecognized_key_amended (k : String) (d : RawDict)
    (es : EntitySnapshot) (h : ∃ kv ∈ d, kv.1 ∉ option_keys) :
    init_failed (_init_option_dict k d es) = true ∧
    ((∀ kv ∈ d, kv.1 ∈ option_keys → validate_value kv.1 kv.2 es = true) →
      is_unrecognized_key_error (_init_option_dict k d es) = true) := by
  constructor
  · obtain ⟨e, he⟩ := init_option_dict_loop_error_of_bad_key k es d {} h
    simp [_init_option_dict, he, init_failed, Except.map]
  · intro hval
    obtain ⟨bk, _, he⟩ := init_option_dict_loop_unrecognized k es d {} h hval
    simp [_init_option_dict, he, is_unrecognized_key_error, Except.map]

/-- C7 witness: a raw dict whose only entry has the unrecognized key
`"bogus_option"` fails with `UnrecognizedOptionKey`. -/
theorem init_option_dict_unrecognized_key_witness :
    init_failed (_init_option_dict "p" [("bogus_option", RawValue.pylist [])] []) = true ∧
    is_unrecognized_key_error
      (_init_option_dict "p" [("bogus_option", RawValue.pylist [])] []) = true :=
  ⟨(init_option_dict_unrecognized_key_amended "p" _ [] (by decide)).1,
   (init_option_dict_unrecognized_key_amended "p" _ [] (by decide)).2 (by decide)⟩

/-! ### C8: slot-count mismatch for list-form values -/

theorem init_primitive_options_loop_append (es : EntitySnapshot) (reg : String → Option Nat)
    (a b : List (PrimitiveKey × RawOptions)) : ∀ (t : OptionsTable),
    _init_primitive_options_loop es reg (a ++ b) t =
      match _init_primitive_options_loop es reg a t with
      | .error e => .error e
      | .ok t' => _init_primitive_options_loop es reg b t' := by
  induction a with
  | nil => intro t; rfl
  | cons x rest ih =>
      intro t
      obtain ⟨key, ro⟩ := x
      cases hn : normalize_entry es reg key ro with
      | error e => simp [_init_primitive_options_loop, hn]
      | ok opts =>
          cases hi : insert_names opts (names_of_key key) t with
          | error e => simp [_init_primitive_options_loop, hn, hi]
          | ok t' => simp [_init_primitive_options_loop, hn, hi, ih t']

theorem init_primitive_options_loop_append_ok (es : EntitySnapshot) (reg : String → Option Nat)
    (a b : List (PrimitiveKey × RawOptions)) (t t' : OptionsTable)
    (h : _init_primitive_options_loop es reg a t = .ok t') :
    _init_primitive_options_loop es reg (a ++ b) t = _init_primitive_options_loop es reg b t' := by
  rw [init_primitive_options_loop_append, h]

/-- C8 counterexample: claim C8 states that every raw mapping containing a
list-form value whose length differs from the primitive's slot count fails
with `SlotCountMismatch`; when an earlier mapping entry already fails (here
with an unrecognized key), that earlier fault wins instead. -/
theorem init_primitive_options_slot_mismatch_counterexample :
    _init_primitive_options
        [(.single "a", .one [("bogus_option", RawValue.pylist [])]),
         (.single "b", .many [])] [] registry_b1
      = .error (.unrecognizedOptionKey "a" "bogus_option") ∧
    registry_b1 "b" = some 1 ∧
    (Except.error (PyError.unrecognizedOptionKey "a" "bogus_option") :
        Except PyError OptionsTable) ≠ .error (.slotCountMismatch "b") := by decide

/-- C8 (amended): when the entries preceding a list-form entry all process
successfully, a list length differing from the primitive's declared slot
count fails table construction with `SlotCountMismatch`, before any record
of that primitive is normalized or entered; an earlier entry's own fault
preempts this error. -/
theorem init_primitive_options_slot_mismatch_amended
    (pre post : List (PrimitiveKey × RawOptions)) (K : PrimitiveKey) (l : List RawDict)
    (es : EntitySnapshot) (reg : String → Option Nat) (n : Nat) (t : OptionsTable)
    (hpre : _init_primitive_options_loop es reg pre [] = .ok t)
    (hK : registry_key_lookup reg K = some n)
    (hne : n ≠ l.length) :
    _init_primitive_options (pre ++ (K, .many l) :: post) es reg
      = .error (.slotCountMismatch (key_label K)) := by
  unfold _init_primitive_options
  rw [init_primitive_options_loop_append_ok es reg pre ((K, RawOptions.many l) :: post) [] t hpre]
  simp only [_init_primitive_options_loop, normalize_entry, hK, if_pos hne]

/-- C8 witness: a one-entry mapping giving primitive `b` (declared with
one input slot) an empty list of option dicts fails with
`SlotCountMismatch`. -/
theorem init_primitive_options_slot_mismatch_witness :
    _init_primitive_options [(PrimitiveKey.single "b", RawOptions.many [])] [] registry_b1
      = .error (.slotCountMismatch "b") :=
  init_primitive_options_slot_mismatch_amended [] [] (.single "b") [] [] registry_b1 1 []
    rfl rfl (by decide)

/-! ### C2: reconciliation of global ignores against explicit inclusions -/

theorem foldl_map_comm (l : List α) (F : α → β → β) (xs : List β) :
    l.foldl (fun acc a => acc.map (F a)) xs = xs.map fun b => l.foldl (fun b a => F a b) b := by
  induction l generalizing xs with
  | nil => simp
  | cons a l ih =>
      simp only [List.foldl_cons]
      rw [ih (xs.map (F a)), List.map_map]
      rfl

theorem update_ignore_variables_proj (i : Finset EntityId) (ev : EntityId × Finset VariableId)
    (o : OptionRecord) :
    (update_ignore_variables i ev o).include_entities = o.include_entities ∧
    (update_ignore_variables i ev o).include_variables = o.include_variables ∧
    (update_ignore_variables i ev o).ignore_entities = o.ignore_entities := by
  cases h : assocFind? ev.1 o.ignore_variables with
  | some s => simp [update_ignore_variables, h]
  | none => by_cases hi : ev.1 ∈ i <;> simp [update_ignore_variables, h, hi]

theorem foldl_update_ignore_variables_proj (i : Finset EntityId) (gv : VarMap) :
    ∀ (o : OptionRecord),
    (gv.foldl (fun o ev => update_ignore_variables i ev o) o).include_entities
        = o.include_entities ∧
    (gv.foldl (fun o ev => update_ignore_variables i ev o) o).include_variables
        = o.include_variables ∧
    (gv.foldl (fun o ev => update_ignore_variables i ev o) o).ignore_entities
        = o.ignore_entities := by
  induction gv with
  | nil => intro o; exact ⟨rfl, rfl, rfl⟩
  | cons ev rest ih =>
      intro o
      simp only [List.foldl_cons]
      obtain ⟨a, b, c⟩ := ih (update_ignore_variables i ev o)
      obtain ⟨d, e, f⟩ := update_ignore_variables_proj i ev o
      exact ⟨a.trans d, b.trans e, c.trans f⟩

theorem reconcile_record_proj (g i : Finset EntityId) (gv : VarMap) (o : OptionRecord) :
    (reconcile_record g i gv o).include_entities = o.include_entities ∧
    (reconcile_record g i gv o).include_variables = o.include_variables ∧
    (reconcile_record g i gv o).ignore_entities = o.ignore_entities ∪ (g \ i) := by
  obtain ⟨a, b, c⟩ := foldl_update_ignore_variables_proj i gv (update_ignore_entities g i o)
  exact ⟨a, b, c⟩

theorem reconcile_step_some (gIgnE : Finset EntityId) (gIgnV : VarMap)
    (st : OptionsTable × Finset EntityId) (p : String) (options : List OptionRecord)
    (h : assocFind? p st.1 = some options) :
    reconcile_step gIgnE gIgnV st p =
      (assocSet p
          (options.map (reconcile_record gIgnE (included_entities_of options) gIgnV)) st.1,
        st.2 \ included_entities_of options) := by
  simp only [reconcile_step, h]
  rw [foldl_map_comm gIgnV (update_ignore_variables (included_entities_of options))
    (options.map (update_ignore_entities gIgnE (included_entities_of options))),
    List.map_map]
  rfl

theorem reconcile_step_none (gIgnE : Finset EntityId) (gIgnV : VarMap)
    (st : OptionsTable × Finset EntityId) (p : String)
    (h : assocFind? p st.1 = none) :
    reconcile_step gIgnE gIgnV st p =
      (st.1 ++ [(p, [default_record gIgnE gIgnV])], st.2) := by
  simp only [reconcile_step, h]

theorem included_entities_of_congr (opts opts₀ : List OptionRecord)
    (h : List.Forall₂ (fun o o₀ => o.include_entities = o₀.include_entities ∧
          o.include_variables = o₀.include_variables) opts opts₀) :
    included_entities_of opts = included_entities_of opts₀ := by
  suffices aux : ∀ acc : Finset EntityId,
      opts.foldl (fun acc o => acc ∪ (o.include_entities.getD ∅) ∪
        ((o.include_variables.getD []).map Prod.fst).toFinset) acc =
      opts₀.foldl (fun acc o => acc ∪ (o.include_entities.getD ∅) ∪
        ((o.include_variables.getD []).map Prod.fst).toFinset) acc by
    exact aux ∅
  induction h with
  | nil => intro acc; rfl
  | cons hrel _ ih =>
      intro acc
      simp only [List.foldl_cons]
      rw [hrel.1, hrel.2]
      exact ih _

theorem included_entities_of_default (a : Finset EntityId) (b : VarMap) :
    included_entities_of [default_record a b] = ∅ := by
  simp [included_entities_of, default_record]

theorem record_rel_refl (g inc : Finset EntityId) (o : OptionRecord) : record_rel g inc o o :=
  ⟨rfl, rfl, subset_rfl, Finset.subset_union_left⟩

theorem record_rel_reconcile (g inc : Finset EntityId) (gv : VarMap) (o o₀ : OptionRecord)
    (h : record_rel g inc o o₀) : record_rel g inc (reconcile_record g inc gv o) o₀ := by
  obtain ⟨h1, h2, h3, h4⟩ := h
  obtain ⟨p1, p2, p3⟩ := reconcile_record_proj g inc gv o
  refine ⟨p1.trans h1, p2.trans h2, ?_, ?_⟩
  · rw [p3]; exact h3.trans Finset.subset_union_left
  · rw [p3]; exact Finset.union_subset h4 Finset.subset_union_right

theorem table_rel_refl (gIgnE : Finset EntityId) (table₀ : OptionsTable) :
    table_rel gIgnE table₀ table₀ := by
  intro q
  cases h : assocFind? q table₀ with
  | none => exact trivial
  | some opts =>
      show List.Forall₂ _ opts opts
      exact List.forall₂_same.mpr fun o _ => record_rel_refl _ _ o

theorem table_rel_step (gIgnE : Finset EntityId) (gIgnV : VarMap) (table₀ : OptionsTable)
    (st : OptionsTable × Finset EntityId) (p : String)
    (h : table_rel gIgnE table₀ st.1) :
    table_rel gIgnE table₀ (reconcile_step gIgnE gIgnV st p).1 := by
  cases hc : assocFind? p st.1 with
  | some options =>
      rw [reconcile_step_some gIgnE gIgnV st p options hc]
      intro q
      by_cases hq : q = p
      · subst hq
        have hp := h q
        rw [hc] at hp
        rw [assocFind?_assocSet_self]
        cases h0 : assocFind? q table₀ with
        | some opts₀ =>
            rw [h0] at hp
            have hp' : List.Forall₂
                (fun o o₀ => record_rel gIgnE (included_entities_of opts₀) o o₀)
                options opts₀ := hp
            have hinc : included_entities_of options = included_entities_of opts₀ :=
              included_entities_of_congr _ _ (hp'.imp fun a b hr => ⟨hr.1, hr.2.1⟩)
            show List.Forall₂ _ (options.map _) opts₀
            rw [hinc]
            exact List.forall₂_map_left_iff.mpr
              (hp'.imp fun a b hr => record_rel_reconcile _ _ gIgnV a b hr)
        | none =>
            rw [h0] at hp
            have hinc : included_entities_of options = ∅ := hp
            show included_entities_of
              (options.map (reconcile_record gIgnE (included_entities_of options) gIgnV)) = ∅
            have hsame : included_entities_of
                (options.map (reconcile_record gIgnE (included_entities_of options) gIgnV))
                = included_entities_of options := by
              apply included_entities_of_congr
              apply List.forall₂_map_left_iff.mpr
              apply List.forall₂_same.mpr
              intro o _
              obtain ⟨a, b, _⟩ :=
                reconcile_record_proj gIgnE (included_entities_of options) gIgnV o
              exact ⟨a, b⟩
            rw [hsame, hinc]
      · rw [assocFind?_assocSet_ne p q _ st.1 fun hh => hq hh.symm]
        exact h q
  | none =>
      rw [reconcile_step_none gIgnE gIgnV st p hc]
      intro q
      rw [assocFind?_append]
      cases hcq : assocFind? q st.1 with
      | some v =>
          have := h q
          rw [hcq] at this
          exact this
      | none =>
          have hq0 := h q
          rw [hcq] at hq0
          by_cases hq : p = q
          · subst hq
            rw [assocFind?_cons, if_pos rfl]
            cases h0 : assocFind? p table₀ with
            | some opts₀ => rw [h0] at hq0; exact hq0.elim
            | none =>
                show included_entities_of [default_record gIgnE gIgnV] = ∅
                exact included_entities_of_default gIgnE gIgnV
          · rw [assocFind?_cons, if_neg hq, assocFind?_nil]
            exact hq0

theorem reconcile_step_residual (gIgnE : Finset EntityId) (gIgnV : VarMap)
    (table₀ : OptionsTable) (st : OptionsTable × Finset EntityId) (p : String)
    (h : table_rel gIgnE table₀ st.1) :
    (reconcile_step gIgnE gIgnV st p).2
      = st.2 \ ((assocFind? p table₀).elim ∅ included_entities_of) := by
  cases hc : assocFind? p st.1 with
  | some options =>
      rw [reconcile_step_some gIgnE gIgnV st p options hc]
      have hp := h p
      rw [hc] at hp
      cases h0 : assocFind? p table₀ with
      | some opts₀ =>
          rw [h0] at hp
          have hp' : List.Forall₂
              (fun o o₀ => record_rel gIgnE (included_entities_of opts₀) o o₀)
              options opts₀ := hp
          have hinc : included_entities_of options = included_entities_of opts₀ :=
            included_entities_of_congr _ _ (hp'.imp fun a b hr => ⟨hr.1, hr.2.1⟩)
          show st.2 \ included_entities_of options = st.2 \ included_entities_of opts₀
          rw [hinc]
      | none =>
          rw [h0] at hp
          have hinc : included_entities_of options = ∅ := hp
          show st.2 \ included_entities_of options = st.2 \ ∅
          rw [hinc]
  | none =>
      rw [reconcile_step_none gIgnE gIgnV st p hc]
      have hp := h p
      rw [hc] at hp
      cases h0 : assocFind? p table₀ with
      | some opts₀ => rw [h0] at hp; exact hp.elim
      | none => show st.2 = st.2 \ ∅; rw [Finset.sdiff_empty]

theorem mem_included_union (table : OptionsTable) (prims : List String) (q : String)
    (hq : q ∈ prims) (X : EntityId)
    (hX : X ∈ (assocFind? q table).elim ∅ included_entities_of) :
    X ∈ included_union table prims := by
  induction prims with
  | nil => cases hq
  | cons p rest ih =>
      rw [show included_union table (p :: rest)
          = ((assocFind? p table).elim ∅ included_entities_of) ∪ included_union table rest
        from rfl]
      rcases List.mem_cons.mp hq with rfl | hm
      · exact Finset.mem_union_left _ hX
      · exact Finset.mem_union_right _ (ih hm)

theorem reconcile_fold_main (gIgnE : Finset EntityId) (gIgnV : VarMap)
    (table₀ : OptionsTable) :
    ∀ (prims : List String) (st : OptionsTable × Finset EntityId),
    table_rel gIgnE table₀ st.1 →
    table_rel gIgnE table₀ (prims.foldl (reconcile_step gIgnE gIgnV) st).1 ∧
    (prims.foldl (reconcile_step gIgnE gIgnV) st).2 = st.2 \ included_union table₀ prims := by
  intro prims
  induction prims with
  | nil =>
      intro st h
      exact ⟨h, by simp [included_union]⟩
  | cons p rest ih =>
      intro st h
      rw [List.foldl_cons]
      obtain ⟨hrel, hres⟩ :=
        ih (reconcile_step gIgnE gIgnV st p) (table_rel_step gIgnE gIgnV table₀ st p h)
      refine ⟨hrel, ?_⟩
      rw [hres, reconcile_step_residual gIgnE gIgnV table₀ st p h]
      rw [show included_union table₀ (p :: rest)
          = ((assocFind? p table₀).elim ∅ included_entities_of) ∪ included_union table₀ rest
        from rfl]
      rw [sdiff_sdiff_left, Finset.sup_eq_union]

/-- C2 counterexample: claim C2 states that when the global
`ignore_entities` contains `X` and a primitive's explicit record includes
`X`, after reconciliation `X` is in none of that primitive's slot records'
`ignore_entities` sets.  When the user's own record also lists `X` in its
`ignore_entities`, `X` remains there after reconciliation. -/
theorem reconcile_global_include_counterexample :
    generate_all_primitive_options ["p"]
        [(.single "p", .one [("include_entities", RawValue.pylist ["X"]),
                             ("ignore_entities", RawValue.pylist ["X"])])]
        {"X"} [] [] registry_none
      = .ok ([("p", [{ ignore_entities := {"X"}, ignore_variables := [],
                       include_entities := some {"X"} }])], ∅) ∧
    "X" ∈ ({ ignore_entities := {"X"}, ignore_variables := [],
             include_entities := some {"X"} } : OptionRecord).ignore_entities := by decide

/-- C2 (amended): for a primitive occurring in `all_primitives` whose
explicit records include `X`, reconciliation never adds `X` to any of its
slot records' `ignore_entities` sets (slotwise, `X` is in the resolved
ignore set iff the user's own record already listed it), `X` is absent
from the returned residual global-ignore set, and in general the residual
set equals the global `ignore_entities` minus the union of
`included_entities` over the primitives of `all_primitives` that have
explicit records (a primitive with explicit records that is not in
`all_primitives` is never visited and does not contribute). -/
theorem reconcile_global_include_amended (all_primitives : List String)
    (table₀ : OptionsTable) (gIgnE : Finset EntityId) (gIgnV : VarMap)
    (X p : String) (opts₀ : List OptionRecord)
    (hp : assocFind? p table₀ = some opts₀)
    (hmem : p ∈ all_primitives)
    (hX : X ∈ included_entities_of opts₀) :
    (reconcile_all all_primitives table₀ gIgnE gIgnV).2
        = gIgnE \ included_union table₀ all_primitives ∧
    X ∉ (reconcile_all all_primitives table₀ gIgnE gIgnV).2 ∧
    (∀ opts', assocFind? p (reconcile_all all_primitives table₀ gIgnE gIgnV).1 = some opts' →
       List.Forall₂ (fun o' o₀ => X ∈ o'.ignore_entities ↔ X ∈ o₀.ignore_entities)
         opts' opts₀) := by
  obtain ⟨hrel, hres⟩ := reconcile_fold_main gIgnE gIgnV table₀ all_primitives
    (table₀, gIgnE) (table_rel_refl gIgnE table₀)
  have hres' : (reconcile_all all_primitives table₀ gIgnE gIgnV).2
      = gIgnE \ included_union table₀ all_primitives := hres
  refine ⟨hres', ?_, ?_⟩
  · rw [hres']
    intro hmem2
    have hXU : X ∈ included_union table₀ all_primitives :=
      mem_included_union table₀ all_primitives p hmem X (by rw [hp]; exact hX)
    exact (Finset.mem_sdiff.mp hmem2).2 hXU
  · intro opts' hfind
    have he := hrel p
    rw [hp] at he
    rw [show (reconcile_all all_primitives table₀ gIgnE gIgnV).1
        = (all_primitives.foldl (reconcile_step gIgnE gIgnV) (table₀, gIgnE)).1 from rfl] at hfind
    rw [hfind] at he
    have he' : List.Forall₂
        (fun o o₀ => record_rel gIgnE (included_entities_of opts₀) o o₀) opts' opts₀ := he
    refine he'.imp fun o' o₀ hr => ?_
    obtain ⟨_, _, h3, h4⟩ := hr
    constructor
    · intro hin
      rcases Finset.mem_union.mp (h4 hin) with hh | hh
      · exact hh
      · exact absurd hX (Finset.mem_sdiff.mp hh).2
    · intro hin
      exact h3 hin

/-- C2 witness: on the concrete table, the residual set drops `X`. -/
theorem reconcile_global_include_witness :
    (reconcile_all ["p"] c2_table {"X"} []).2 = {"X"} \ included_union c2_table ["p"] ∧
    "X" ∉ (reconcile_all ["p"] c2_table {"X"} []).2 :=
  ⟨(reconcile_global_include_amended ["p"] c2_table {"X"} [] "X" "p"
      [{ ignore_entities := ∅, ignore_variables := [], include_entities := some {"X"} }]
      rfl (by decide) (by decide)).1,
   (reconcile_global_include_amended ["p"] c2_table {"X"} [] "X" "p"
      [{ ignore_entities := ∅, ignore_variables := [], include_entities := some {"X"} }]
      rfl (by decide) (by decide)).2.1⟩

end OptionsUtils
